import Mathlib

/-!
# Verification of the incentive calculation engine

Shallow embedding of `src/step1_인센티브_계산.py`: the TYPE-1 condition
evaluator, the continuous-month reconstructor and its reverse amount
lookup, the category dispatcher, the line-leader / head rollup formulas,
the audit consecutive-failure classifier, the building (work-area)
consolidation, and the subordinate BFS traversal.

Monetary amounts are modelled as `ℕ` (VND) where the source works with
exact table entries, and as `ℚ` where the source mixes floats (the
rollup sums and averages); Python `int(x)` on a non-negative value is
modelled as `Int.toNat ⌊x⌋`.  The float comparison
`min_diff <= incentive_int * 0.1` is modelled as `10 * min_diff ≤
incentive`: for the integer ranges reached here the two agree, since
`min_diff` is an integer and the double rounding error of
`incentive * 0.1` is far below 1.
-/

namespace QIP

/-- Python `str.strip()` (ASCII whitespace), over the character list so
that proofs can evaluate it. -/
def pyStrip (s : String) : String :=
  ⟨((s.data.dropWhile Char.isWhitespace).reverse.dropWhile
      Char.isWhitespace).reverse⟩

/-- Python `str.upper()` (ASCII). -/
def pyUpper (s : String) : String := ⟨s.data.map Char.toUpper⟩

/-- Python `str.lower()` (ASCII). -/
def pyLower (s : String) : String := ⟨s.data.map Char.toLower⟩

/-- Python `str.startswith`. -/
def pyStartsWith (s pre : String) : Bool := pre.data.isPrefixOf s.data

/-- Python slice `s[:n]`. -/
def pyTake (s : String) (n : ℕ) : String := ⟨s.data.take n⟩

/-- Python `s[0]` (only used on non-empty strings). -/
def pyHead (s : String) : Char := s.data.headD 'A'

/-- `_get_applicable_conditions`: the per-category condition sets
(`condition_mapping` dict, with `.get(..., [1,2,3,4])` default). -/
def applicableConditionsFor (category : String) : List ℕ :=
  if category = "AQL_INSPECTOR" then [1, 2, 3, 4, 5]
  else if category = "ASSEMBLY_INSPECTOR" then [1, 2, 3, 4, 5, 6, 9, 10]
  else if category = "AUDITOR_TRAINER" then [1, 2, 3, 4, 7, 8]
  else if category = "MODEL_MASTER" then [1, 2, 3, 4, 8]
  else if category = "OTHER" then [1, 2, 3, 4]
  else [1, 2, 3, 4]

/-- The values accepted as passing in `_evaluate_type1_conditions_unified`:
`value in ['PASS', 'NOT_APPLICABLE', 'YES', '1', 'TRUE']`. -/
def passValues : List String := ["PASS", "NOT_APPLICABLE", "YES", "1", "TRUE"]

/-- `condition_columns` has entries only for condition numbers 1..10; a
condition outside that range has no column and is auto-passed. -/
def hasConditionColumn (n : ℕ) : Bool := 1 ≤ n && n ≤ 10

/-- The processed cell value: `str(row.get(col, 'PASS')).strip().upper()`.
`row` maps a condition number to the raw string stored in its column. -/
def condValue (row : ℕ → String) (n : ℕ) : String := pyUpper (pyStrip (row n))

/-- Result record of `_evaluate_type1_conditions_unified`. -/
structure EvalResult where
  all_pass : Bool
  applicable_conditions : List ℕ
  passed_conditions : List ℕ
  failed_conditions : List ℕ
  pass_rate : ℚ
  deriving Repr, DecidableEq

/-- The evaluation loop of `_evaluate_type1_conditions_unified`: walk the
applicable conditions accumulating the passed and failed lists. -/
def evalLoop (row : ℕ → String) : List ℕ → List ℕ × List ℕ
  | [] => ([], [])
  | n :: rest =>
    let r := evalLoop row rest
    if !hasConditionColumn n then (n :: r.1, r.2)
    else if condValue row n ∈ passValues then (n :: r.1, r.2)
    else (r.1, n :: r.2)

/-- `_evaluate_type1_conditions_unified`: evaluate every applicable
condition of the employee's position category against the row. -/
def evalType1Conditions (row : ℕ → String) (category : String) : EvalResult :=
  let applicable := applicableConditionsFor category
  let r := evalLoop row applicable
  { all_pass := r.2.length == 0
    applicable_conditions := applicable
    passed_conditions := r.1
    failed_conditions := r.2
    pass_rate := if applicable.length ≠ 0 then
        (r.1.length : ℚ) / (applicable.length : ℚ) else 0 }

/-- The standard TYPE-1 progression table (`progression_table` in
`_calculate_standard_progression` / `_reverse_calculate_months_from_incentive_unified`),
with `.get(months, 0)` semantics outside the keys. -/
def progressionTable (m : ℕ) : ℕ :=
  if m = 1 then 150000
  else if m = 2 then 250000
  else if m = 3 then 300000
  else if m = 4 then 350000
  else if m = 5 then 400000
  else if m = 6 then 450000
  else if m = 7 then 500000
  else if m = 8 then 650000
  else if m = 9 then 750000
  else if m = 10 then 850000
  else if m = 11 then 950000
  else if m = 12 then 1000000
  else if m = 13 then 1000000
  else if m = 14 then 1000000
  else if m = 15 then 1000000
  else 0

/-- The key list of the reverse-lookup table, in dict insertion order. -/
def progressionMonths : List ℕ := List.range' 1 15

/-- The closest-entry scan of `_reverse_calculate_months_from_incentive_unified`:
`closest_months = 1; min_diff = inf; for months, amount in table: if
abs(incentive - amount) < min_diff: update`.  `none` models `inf`. -/
def findClosestAux (a : ℕ) : List ℕ → ℕ × Option ℕ → ℕ × Option ℕ
  | [], best => best
  | n :: rest, (bm, bd) =>
    let d := Nat.dist a (progressionTable n)
    let better := match bd with
      | none => true
      | some b => d < b
    if better then findClosestAux a rest (n, some d)
    else findClosestAux a rest (bm, bd)

/-- Part 1 table of the AQL Inspector 3-part computation (`part1_table`). -/
def part1Table (m : ℕ) : ℕ := if 1 ≤ m ∧ m ≤ 15 then progressionTable m else 0

/-- Part 3 (HWK) table of `_calculate_aql_inspector_3part` (`part3_table`):
zero through month 3, then three-month steps. -/
def part3Table (m : ℕ) : ℕ :=
  if m ≤ 3 then 0
  else if m ≤ 6 then 300000
  else if m ≤ 9 then 500000
  else if m ≤ 12 then 700000
  else if m ≤ 15 then 900000
  else 0

/-- `_reverse_calculate_aql_months`: reverse the 3-part AQL total.
Subtract the fixed CFA 700,000 when possible, then scan months 1..15 for
a Part1+Part3 base within 5%; default 1. -/
def reverseCalculateAqlMonths (total : ℕ) : ℕ :=
  if total = 0 then 0
  else
    let base := if total < 700000 then total else total - 700000
    let scan := (List.range' 1 15).find? fun months =>
      let expected := part1Table months + (if 4 ≤ months then part3Table months else 0)
      decide (0 < expected) && decide (20 * Nat.dist base expected ≤ expected)
    match scan with
    | some months => months
    | none => 1

/-- The standard-table branch of
`_reverse_calculate_months_from_incentive_unified`: the exact scan in
dict (ascending month) order, then the nearest entry within the 10%
tolerance, else 1. -/
def reverseStandardScan (incentive_int : ℕ) : ℕ :=
  match progressionMonths.find? (fun n => progressionTable n == incentive_int) with
  | some n => n
  | none =>
    let r := findClosestAux incentive_int progressionMonths (1, none)
    match r.2 with
    | some md => if 10 * md ≤ incentive_int then r.1 else 1
    | none => 1

/-- `_reverse_calculate_months_from_incentive_unified`: non-positive
amounts reverse to 0, AQL inspectors go through the 3-part reverse, the
rest through the standard-table scan. -/
def reverseCalculateMonthsUnified (amount : ℕ) (category : String) : ℕ :=
  if amount = 0 then 0
  else if category = "AQL_INSPECTOR" then reverseCalculateAqlMonths amount
  else reverseStandardScan amount

/-- `_calculate_continuous_months_type1_unified`: 0 on any condition
failure, 1 on a first qualifying month (zero/absent previous amount),
otherwise reversed previous months + 1 capped at 15. -/
def calculateContinuousMonthsType1 (allPass : Bool) (previousIncentive : ℕ)
    (category : String) : ℕ :=
  if !allPass then 0
  else if previousIncentive = 0 then 1
  else min (reverseCalculateMonthsUnified previousIncentive category + 1) 15

/-- `_reverse_calculate_months_from_incentive` (the legacy reconstructor):
exact match returns `months + 1`; otherwise a diagnostic warning is
printed and 1 is returned.  The boolean records whether the warning was
emitted. -/
def reverseCalculateMonthsLegacy (amount : ℕ) : ℕ × Bool :=
  if amount = 0 then (1, false)
  else
    match progressionMonths.find? (fun n => progressionTable n == amount) with
    | some n => (n + 1, false)
    | none => (1, true)

/-- Result record of `_calculate_type1_incentive_by_category`. -/
structure IncentiveResult where
  incentive_amount : ℕ
  continuous_months : ℕ
  calculation_method : String
  deriving Repr, DecidableEq

/-- `_calculate_standard_progression`: plain table lookup capped at 15. -/
def calculateStandardProgression (continuousMonths : ℕ) : IncentiveResult :=
  let months := min continuousMonths 15
  { incentive_amount := progressionTable months
    continuous_months := months
    calculation_method := "standard_progression" }

/-- `_calculate_aql_inspector_3part`: Part1 (progression) + Part2 (CFA
700,000 when certified) + Part3 (HWK table). -/
def calculateAqlInspector3Part (cfaCertified : Bool) (continuousMonths : ℕ) :
    IncentiveResult :=
  let months := min continuousMonths 15
  let part1 := part1Table months
  let part2 := if cfaCertified then 700000 else 0
  let part3 := part3Table months
  { incentive_amount := part1 + part2 + part3
    continuous_months := months
    calculation_method := "3-part" }

/-- `_calculate_type1_incentive_by_category`: zero unless all applicable
conditions pass and the continuous-month count is positive, then
dispatch to the 3-part or standard computation. -/
def calculateType1IncentiveByCategory (category : String)
    (continuousMonths : ℕ) (cfaCertified : Bool) (allPass : Bool) :
    IncentiveResult :=
  if !allPass || continuousMonths = 0 then
    { incentive_amount := 0
      continuous_months := 0
      calculation_method := "conditions_not_met" }
  else if category = "AQL_INSPECTOR" then
    calculateAqlInspector3Part cfaCertified continuousMonths
  else calculateStandardProgression continuousMonths

/-- The per-condition Excel cell written by
`add_condition_evaluation_to_excel`: every `cond_i_...` column receives
the evaluated result when condition `i` is in the category's applicable
set, and the literal `'NOT_APPLICABLE'` otherwise. -/
def storedConditions (applicable : List ℕ) (raw : ℕ → String) : ℕ → String :=
  fun i => if i ∈ applicable then raw i else "NOT_APPLICABLE"

/-- The aggregate loop of `add_condition_evaluation_to_excel`
(`applicable_count` / `passed_count`): a condition whose stored value is
`'N/A'` or `'NOT_APPLICABLE'` is skipped entirely; otherwise it counts
as applicable, and as passed when the value is exactly `'PASS'`. -/
def aggregateLoop (stored : ℕ → String) : List ℕ → ℕ × ℕ
  | [] => (0, 0)
  | i :: rest =>
    let r := aggregateLoop stored rest
    if stored i = "N/A" ∨ stored i = "NOT_APPLICABLE" then (r.1, r.2)
    else (r.1 + 1, if stored i = "PASS" then r.2 + 1 else r.2)

/-- `conditions_applicable` and `conditions_passed` over conditions 1..10. -/
def aggregateCounts (stored : ℕ → String) : ℕ × ℕ :=
  aggregateLoop stored (List.range' 1 10)

/-- `conditions_pass_rate = passed / applicable * 100` (0 when nothing
is applicable). -/
def conditionsPassRate (stored : ℕ → String) : ℚ :=
  let r := aggregateCounts stored
  if 0 < r.1 then (r.2 : ℚ) / (r.1 : ℚ) * 100 else 0

/-- `month_name[:3].upper()` used when building the 2-month tag. -/
def monthAbbrev (name : String) : String := pyUpper (pyTake name 3)

/-- The classification step of `process_aql_conditions_with_history`:
failure in all three periods gives `YES_3MONTHS`; otherwise failure in
the two most recent periods gives `YES_2MONTHS_<M2>_<M3>`; else `NO`. -/
def classifyContinuousFail (month1Fail month2Fail month3Fail : Bool)
    (month2Name month3Name : String) : String :=
  if month1Fail && month2Fail && month3Fail then "YES_3MONTHS"
  else if month2Fail && month3Fail then
    "YES_2MONTHS_" ++ monthAbbrev month2Name ++ "_" ++ monthAbbrev month3Name
  else "NO"

/-- `_is_consecutive_failure_for_year`: through 2025 only the
three-month tag disqualifies; from 2026 every tag starting with `YES`
does. -/
def isConsecutiveFailureForYear (continuousFailValue : String) (year : ℕ) : Bool :=
  let value := pyUpper (pyStrip continuousFailValue)
  if year ≤ 2025 then value == "YES_3MONTHS"
  else pyStartsWith value "YES"

/-- A subordinate row as read by the line-leader calculation: role type,
current-period incentive and the `Continuous_FAIL` tag. -/
structure Sub where
  roleType : String
  incentive : ℚ
  continuousFail : String
  deriving Repr

/-- The subordinate accumulation loop of
`calculate_line_leader_incentive_type1_only`: only TYPE-1 subordinates
count; `total_sub_incentive` sums the receivers (`> 0`) and
`receiving_count` counts them, `total_count` counts all TYPE-1 rows.
Returns `(total_sub_incentive, receiving_count, total_count)`. -/
def lineLeaderTotals : List Sub → ℚ × ℕ × ℕ
  | [] => (0, 0, 0)
  | s :: rest =>
    let r := lineLeaderTotals rest
    if s.roleType = "TYPE-1" then
      if 0 < s.incentive then (r.1 + s.incentive, r.2.1 + 1, r.2.2 + 1)
      else (r.1, r.2.1, r.2.2 + 1)
    else (r.1, r.2.1, r.2.2)

/-- `check_subordinates_continuous_fail`: true when any subordinate's
`Continuous_FAIL` tag disqualifies under the year's policy. -/
def checkSubordinatesContinuousFail (year : ℕ) (subs : List Sub) : Bool :=
  subs.any fun s => isConsecutiveFailureForYear s.continuousFail year

/-- `calculate_line_leader_incentive_type1_only` for one leader: zero on
any attendance-condition failure, zero when condition 7 flags a
subordinate with a sustained audit failure, otherwise
`int(total_sub_incentive * 0.12 * receiving_ratio)`. -/
def calculateLineLeaderIncentive (c1 c2 c3 c4 : String) (inMapping : Bool)
    (subs : List Sub) (shouldCheckSubordinates : Bool) (year : ℕ) : ℕ :=
  let attendanceFail := c1 == "FAIL" || c2 == "FAIL" || c3 == "FAIL" || c4 == "FAIL"
  if attendanceFail then 0
  else if inMapping then
    let r := lineLeaderTotals subs
    let hasContinuousFail := shouldCheckSubordinates &&
      checkSubordinatesContinuousFail year subs
    if hasContinuousFail then 0
    else if 0 < r.2.2 ∧ 0 < r.2.1 then
      (⌊r.1 * (12 / 100 : ℚ) * ((r.2.1 : ℚ) / (r.2.2 : ℚ))⌋).toNat
    else 0
  else 0

/-- The receiver accumulation shared by `_calculate_line_leader_average_unified`
and the pooled fallback: sum and count of the strictly positive amounts. -/
def receiverTotals : List ℚ → ℚ × ℕ
  | [] => (0, 0)
  | x :: rest =>
    let r := receiverTotals rest
    if 0 < x then (r.1 + x, r.2 + 1) else (r.1, r.2)

/-- `_calculate_line_leader_average_unified`: average over receivers
only (zero-payout leaders excluded from numerator and denominator);
0 when the list is empty or nobody received. -/
def lineLeaderAverageUnified (leaders : List ℚ) : ℚ :=
  if leaders.isEmpty then 0
  else
    let r := receiverTotals leaders
    if 0 < r.2 then r.1 / (r.2 : ℚ) else 0

/-- `calculate_head_incentive` for one head: zero on attendance failure;
otherwise twice the subordinate line-leader average when positive, else
the pooled fallback `int(int(mean of receiving line leaders) * 2)`,
else 0. -/
def calculateHeadIncentive (attendanceFail : Bool) (subLeaders : List ℚ)
    (allLineLeaders : List ℚ) : ℕ :=
  if attendanceFail then 0
  else
    let avg := if subLeaders.isEmpty then 0 else lineLeaderAverageUnified subLeaders
    if 0 < avg then (⌊avg * 2⌋).toNat
    else
      let p := receiverTotals allLineLeaders
      if 0 < p.2 then ((⌊p.1 / (p.2 : ℚ)⌋ * 2)).toNat
      else 0

/-- The cell cleaning of `_process_building_consolidation`:
`str(x).strip()`, with `''`, `'nan'`, `'NaN'`, `'None'` collapsed to `''`. -/
def cleanBuilding (s : String) : String :=
  let t := pyStrip s
  if t = "" ∨ t = "nan" ∨ t = "NaN" ∨ t = "None" then "" else t

/-- Outcome of `_process_building_consolidation` for one row: the final
building value and the mismatch record (both cleaned values) when one
is appended to `mismatch_list`. -/
structure ConsolidationResult where
  final : String
  mismatch : Option (String × String)
  deriving Repr, DecidableEq

/-- `_process_building_consolidation` per-row logic: roster
(`basic_manpower`) value preferred, audit-history (`AQL_BUILDING`) value
as fallback, and a mismatch record whenever both are present and the
raw cleaned values differ. -/
def consolidateBuilding (basicRaw aqlRaw : String) : ConsolidationResult :=
  let basic := cleanBuilding basicRaw
  let aql := cleanBuilding aqlRaw
  if basic ≠ "" ∧ aql ≠ "" then
    if basic = aql then { final := basic, mismatch := none }
    else { final := basic, mismatch := some (basic, aql) }
  else if basic ≠ "" then { final := basic, mismatch := none }
  else if aql ≠ "" then { final := aql, mismatch := none }
  else { final := "", mismatch := none }

/-- `normalize_building` from the building review analysis: invalid
placeholders map to `None`, otherwise the first character of the
original string, upper-cased (`str(bldg)[0].upper()`). -/
def normalizeBuilding (s : String) : Option String :=
  let t := pyStrip s
  if t = "" ∨ t = "nan" ∨ t = "NaN" ∨ t = "None" ∨ t = "N/A" then none
  else some (String.mk [Char.toUpper (pyHead s)])

/-- The HR-vs-AQL data-source comparison of the building review
analysis: cleaned values, both present, compared after normalization;
a record is emitted only when the normalized values differ. -/
def dataSourceMismatch (hrRaw aqlRaw : String) : Bool :=
  let hr := cleanBuilding hrRaw
  let aql := cleanBuilding aqlRaw
  if hr ≠ "" ∧ aql ≠ "" then
    match normalizeBuilding hr, normalizeBuilding aql with
    | some h, some a => h ≠ a
    | _, _ => false
  else false

/-- An employee row as read by `_find_all_subordinate_line_leaders`:
parsed id (`none` when the int conversion fails), name, the two boss
references, position, role type, stop-working date and pregnancy flag
(blank string = absent). -/
structure Emp where
  empId : Option ℕ
  name : String
  mstBoss : Option ℕ
  directBoss : String
  position : String
  roleType : String
  stopDate : String
  pregnant : String
  deriving Repr

/-- The subordinate test of the BFS: `MST direct boss name` id equal to
the current id, or a non-blank `direct boss name` equal to the current
name. -/
def isSubordinateOf (cur : ℕ × String) (e : Emp) : Bool :=
  e.mstBoss == some cur.1 ||
    (pyStrip e.directBoss ≠ "" && pyStrip e.directBoss == cur.2)

/-- The intermediate-management positions whose own subordinates keep
being explored. -/
def intermediatePositions : List String :=
  ["(V) SUPERVISOR", "SUPERVISOR", "GROUP LEADER", "A.MANAGER", "ASSISTANT MANAGER"]

/-- One pass over all rows for the current queue entry `cur` (the body of
the BFS `while` loop): a row already visited or with an unparsable id is
skipped; a freshly discovered subordinate enters `visited` first, then
the stop-date and pregnancy exclusions apply, TYPE-1 line leaders are
collected, and intermediate managers are enqueued. -/
def stepRow (cur : ℕ × String) (e : Emp) (v : Finset ℕ)
    (q : List (ℕ × String)) (a : List Emp) :
    Finset ℕ × List (ℕ × String) × List Emp :=
  match e.empId with
  | none => (v, q, a)
  | some i =>
    if i ∈ v then (v, q, a)
    else if isSubordinateOf cur e then
      let v' := insert i v
      if pyStrip e.stopDate ≠ "" then (v', q, a)
      else if pyLower (pyStrip e.pregnant) = "yes" then (v', q, a)
      else
        let a' := if e.roleType = "TYPE-1" ∧ e.position = "LINE LEADER"
          then a ++ [e] else a
        let q' := if e.position ∈ intermediatePositions
          then q ++ [(i, e.name)] else q
        (v', q', a')
    else (v, q, a)

/-- One pass over all rows for the current queue entry (the inner `for`
loop of the BFS `while` loop), threading the visited set, the queue and
the collected line leaders through `stepRow`. -/
def scanRows (cur : ℕ × String) :
    List Emp → Finset ℕ → List (ℕ × String) → List Emp →
    Finset ℕ × List (ℕ × String) × List Emp
  | [], v, q, a => (v, q, a)
  | e :: rest, v, q, a =>
    scanRows cur rest (stepRow cur e v q a).1 (stepRow cur e v q a).2.1
      (stepRow cur e v q a).2.2

/-- The set of parseable employee ids of the table. -/
def rowIds (rows : List Emp) : Finset ℕ := (rows.filterMap Emp.empId).toFinset

lemma stepRow_measure (ids : Finset ℕ) (cur : ℕ × String) (e : Emp)
    (v : Finset ℕ) (q : List (ℕ × String)) (a : List Emp)
    (hids : ∀ i, e.empId = some i → i ∈ ids) :
    (ids \ (stepRow cur e v q a).1).card + (stepRow cur e v q a).2.1.length ≤
      (ids \ v).card + q.length := by
  match hid : e.empId with
  | none => simp [stepRow, hid]
  | some i =>
    by_cases hv : i ∈ v
    · simp [stepRow, hid, hv]
    · have hiids : i ∈ ids := hids i hid
      have hmem : i ∈ ids \ v := Finset.mem_sdiff.mpr ⟨hiids, hv⟩
      have hpos : 0 < (ids \ v).card := Finset.card_pos.mpr ⟨i, hmem⟩
      have hcard : (ids \ insert i v).card = (ids \ v).card - 1 := by
        rw [Finset.sdiff_insert, Finset.card_erase_of_mem hmem]
      by_cases hsub : isSubordinateOf cur e
      · by_cases hstop : pyStrip e.stopDate ≠ ""
        · simp [stepRow, hid, hv, hsub, hstop]
          omega
        · by_cases hpreg : pyLower (pyStrip e.pregnant) = "yes"
          · simp [stepRow, hid, hv, hsub, hstop, hpreg]
            omega
          · by_cases hq : e.position ∈ intermediatePositions <;>
              simp [stepRow, hid, hv, hsub, hstop, hpreg, hq] <;>
              omega
      · simp [stepRow, hid, hv, hsub]

lemma scanRows_measure (ids : Finset ℕ) (cur : ℕ × String) :
    ∀ (l : List Emp) (v : Finset ℕ) (q : List (ℕ × String)) (a : List Emp),
      (∀ e ∈ l, ∀ i, e.empId = some i → i ∈ ids) →
      (ids \ (scanRows cur l v q a).1).card + (scanRows cur l v q a).2.1.length ≤
        (ids \ v).card + q.length := by
  intro l
  induction l with
  | nil => intro v q a _; simp [scanRows]
  | cons e rest ih =>
    intro v q a hids
    have hrest : ∀ e' ∈ rest, ∀ i, e'.empId = some i → i ∈ ids :=
      fun e' he' => hids e' (List.mem_cons_of_mem _ he')
    have h1 := stepRow_measure ids cur e v q a (hids e (List.mem_cons_self _ _))
    have h2 := ih (stepRow cur e v q a).1 (stepRow cur e v q a).2.1
      (stepRow cur e v q a).2.2 hrest
    simp only [scanRows]
    omega

/-- The BFS `while queue:` loop of `_find_all_subordinate_line_leaders`.
Terminates for every reporting graph, cycles and duplicate edges
included, because each outer iteration pops one queue entry and enqueues
only ids newly inserted into the visited set. -/
def bfsCollect (rows : List Emp) (v : Finset ℕ) (queue : List (ℕ × String))
    (acc : List Emp) : List Emp :=
  match queue with
  | [] => acc
  | cur :: rest =>
    bfsCollect rows (scanRows cur rows v rest acc).1
      (scanRows cur rows v rest acc).2.1 (scanRows cur rows v rest acc).2.2
termination_by (rowIds rows \ v).card + queue.length
decreasing_by
  simp only [List.length_cons]
  have h := scanRows_measure (rowIds rows) cur rows v rest acc
    (fun e he i hi => List.mem_toFinset.mpr (List.mem_filterMap.mpr ⟨e, he, hi⟩))
  omega

/-- `_find_all_subordinate_line_leaders`: resolve the manager row, then
run the BFS from the manager with the visited set seeded with the
manager's own id. -/
def findAllSubordinateLineLeaders (rows : List Emp) (managerId : ℕ) : List Emp :=
  match rows.find? (fun e => e.empId == some managerId) with
  | none => []
  | some m => bfsCollect rows {managerId} [(managerId, m.name)] []

/-- Invariant carried through the BFS: collected ids are distinct, all
inside the visited set and the table's id set, and every collected row
has a parsed id and is a TYPE-1 line leader. -/
def BfsInv (ids v : Finset ℕ) (a : List Emp) : Prop :=
  (a.filterMap Emp.empId).Nodup ∧
  (∀ i ∈ a.filterMap Emp.empId, i ∈ v) ∧
  (∀ e ∈ a, e.empId.isSome) ∧
  (∀ e ∈ a, e.roleType = "TYPE-1" ∧ e.position = "LINE LEADER") ∧
  (∀ i ∈ a.filterMap Emp.empId, i ∈ ids)

lemma stepRow_inv (ids : Finset ℕ) (cur : ℕ × String) (e : Emp)
    (v : Finset ℕ) (q : List (ℕ × String)) (a : List Emp)
    (hids : ∀ i, e.empId = some i → i ∈ ids)
    (hinv : BfsInv ids v a) :
    BfsInv ids (stepRow cur e v q a).1 (stepRow cur e v q a).2.2 := by
  obtain ⟨hnd, hsubv, hsome, hrole, hsubids⟩ := hinv
  match hid : e.empId with
  | none =>
    have h1 : (stepRow cur e v q a).1 = v := by simp [stepRow, hid]
    have h2 : (stepRow cur e v q a).2.2 = a := by simp [stepRow, hid]
    rw [h1, h2]
    exact ⟨hnd, hsubv, hsome, hrole, hsubids⟩
  | some i =>
    by_cases hv : i ∈ v
    · have h1 : (stepRow cur e v q a).1 = v := by simp [stepRow, hid, hv]
      have h2 : (stepRow cur e v q a).2.2 = a := by simp [stepRow, hid, hv]
      rw [h1, h2]
      exact ⟨hnd, hsubv, hsome, hrole, hsubids⟩
    · have hiids : i ∈ ids := hids i hid
      have hinv' : BfsInv ids (insert i v) a :=
        ⟨hnd, fun j hj => Finset.mem_insert_of_mem (hsubv j hj), hsome,
          hrole, hsubids⟩
      by_cases hsub : isSubordinateOf cur e
      · by_cases hstop : pyStrip e.stopDate ≠ ""
        · have h1 : (stepRow cur e v q a).1 = insert i v := by
            simp [stepRow, hid, hv, hsub, hstop]
          have h2 : (stepRow cur e v q a).2.2 = a := by
            simp [stepRow, hid, hv, hsub, hstop]
          rw [h1, h2]
          exact hinv'
        · by_cases hpreg : pyLower (pyStrip e.pregnant) = "yes"
          · have h1 : (stepRow cur e v q a).1 = insert i v := by
              simp [stepRow, hid, hv, hsub, hstop, hpreg]
            have h2 : (stepRow cur e v q a).2.2 = a := by
              simp [stepRow, hid, hv, hsub, hstop, hpreg]
            rw [h1, h2]
            exact hinv'
          · by_cases hrl : e.roleType = "TYPE-1" ∧ e.position = "LINE LEADER"
            · have hids' : (a ++ [e]).filterMap Emp.empId =
                  a.filterMap Emp.empId ++ [i] := by
                simp [List.filterMap_append, hid]
              have hinotin : i ∉ a.filterMap Emp.empId := fun hmem =>
                hv (hsubv i hmem)
              have hinv'' : BfsInv ids (insert i v) (a ++ [e]) := by
                refine ⟨?_, ?_, ?_, ?_, ?_⟩
                · rw [hids']
                  simp only [List.nodup_append, List.nodup_cons,
                    List.not_mem_nil, not_false_iff, List.nodup_nil,
                    and_true, true_and]
                  exact ⟨hnd, by simpa [List.disjoint_singleton] using hinotin⟩
                · rw [hids']
                  intro j hj
                  rcases List.mem_append.mp hj with hj | hj
                  · exact Finset.mem_insert_of_mem (hsubv j hj)
                  · simp only [List.mem_singleton] at hj
                    subst hj; exact Finset.mem_insert_self _ _
                · intro e' he'
                  rcases List.mem_append.mp he' with he' | he'
                  · exact hsome e' he'
                  · simp only [List.mem_singleton] at he'
                    subst he'; simp [hid]
                · intro e' he'
                  rcases List.mem_append.mp he' with he' | he'
                  · exact hrole e' he'
                  · simp only [List.mem_singleton] at he'
                    subst he'; exact hrl
                · rw [hids']
                  intro j hj
                  rcases List.mem_append.mp hj with hj | hj
                  · exact hsubids j hj
                  · simp only [List.mem_singleton] at hj
                    subst hj; exact hiids
              have h1 : (stepRow cur e v q a).1 = insert i v := by
                simp [stepRow, hid, hv, hsub, hstop, hpreg, hrl]
              have h2 : (stepRow cur e v q a).2.2 = a ++ [e] := by
                simp [stepRow, hid, hv, hsub, hstop, hpreg, hrl]
              rw [h1, h2]
              exact hinv''
            · have h1 : (stepRow cur e v q a).1 = insert i v := by
                simp [stepRow, hid, hv, hsub, hstop, hpreg, hrl]
              have h2 : (stepRow cur e v q a).2.2 = a := by
                simp [stepRow, hid, hv, hsub, hstop, hpreg, hrl]
              rw [h1, h2]
              exact hinv'
      · have h1 : (stepRow cur e v q a).1 = v := by
          simp [stepRow, hid, hv, hsub]
        have h2 : (stepRow cur e v q a).2.2 = a := by
          simp [stepRow, hid, hv, hsub]
        rw [h1, h2]
        exact ⟨hnd, hsubv, hsome, hrole, hsubids⟩

lemma scanRows_inv (ids : Finset ℕ) (cur : ℕ × String) :
    ∀ (l : List Emp) (v : Finset ℕ) (q : List (ℕ × String)) (a : List Emp),
      (∀ e ∈ l, ∀ i, e.empId = some i → i ∈ ids) →
      BfsInv ids v a →
      BfsInv ids (scanRows cur l v q a).1 (scanRows cur l v q a).2.2 := by
  intro l
  induction l with
  | nil => intro v q a _ hinv; simpa [scanRows] using hinv
  | cons e rest ih =>
    intro v q a hids hinv
    have hrest : ∀ e' ∈ rest, ∀ i, e'.empId = some i → i ∈ ids :=
      fun e' he' => hids e' (List.mem_cons_of_mem _ he')
    have h1 := stepRow_inv ids cur e v q a (hids e (List.mem_cons_self _ _)) hinv
    have h2 := ih (stepRow cur e v q a).1 (stepRow cur e v q a).2.1
      (stepRow cur e v q a).2.2 hrest h1
    simpa [scanRows] using h2

lemma bfsCollect_inv (rows : List Emp) :
    ∀ (v : Finset ℕ) (queue : List (ℕ × String)) (a : List Emp),
      BfsInv (rowIds rows) v a →
      ∃ v', BfsInv (rowIds rows) v' (bfsCollect rows v queue a) := by
  intro v queue a
  induction v, queue, a using bfsCollect.induct rows with
  | case1 v a =>
    intro hinv
    exact ⟨v, by simpa [bfsCollect] using hinv⟩
  | case2 v a cur rest ih =>
    intro hinv
    have h := scanRows_inv (rowIds rows) cur rows v rest a
      (fun e he i hi => List.mem_toFinset.mpr (List.mem_filterMap.mpr ⟨e, he, hi⟩))
      hinv
    rw [bfsCollect]
    exact ih h

lemma length_filterMap_of_isSome :
    ∀ (l : List Emp), (∀ e ∈ l, e.empId.isSome) →
      (l.filterMap Emp.empId).length = l.length := by
  intro l
  induction l with
  | nil => simp
  | cons e rest ih =>
    intro h
    obtain ⟨i, hi⟩ := Option.isSome_iff_exists.mp (h e (List.mem_cons_self _ _))
    have := ih fun e' he' => h e' (List.mem_cons_of_mem _ he')
    simp [hi, this]

lemma evalLoop_length (row : ℕ → String) :
    ∀ l : List ℕ,
      (evalLoop row l).1.length + (evalLoop row l).2.length = l.length := by
  intro l
  induction l with
  | nil => simp [evalLoop]
  | cons n rest ih =>
    by_cases hc : hasConditionColumn n
    · by_cases hp : condValue row n ∈ passValues
      · simp [evalLoop, hc, hp]; omega
      · simp [evalLoop, hc, hp]; omega
    · simp [evalLoop, hc]; omega

lemma reverseUnified_eq_scan (a : ℕ) (cat : String) (ha : a ≠ 0)
    (hcat : cat ≠ "AQL_INSPECTOR") :
    reverseCalculateMonthsUnified a cat = reverseStandardScan a := by
  simp [reverseCalculateMonthsUnified, ha, hcat]

lemma continuousMonths_of_pass (a : ℕ) (cat : String) (ha : a ≠ 0) :
    calculateContinuousMonthsType1 true a cat =
      min (reverseCalculateMonthsUnified a cat + 1) 15 := by
  simp [calculateContinuousMonthsType1, ha]

lemma findClosestAux_spec (a : ℕ) :
    ∀ (l : List ℕ) (b : ℕ × Option ℕ),
      (∀ x ∈ l, x ∈ progressionMonths) →
      (∀ d, b.2 = some d → b.1 ∈ progressionMonths ∧
        d = Nat.dist a (progressionTable b.1)) →
      ∀ d, (findClosestAux a l b).2 = some d →
        (findClosestAux a l b).1 ∈ progressionMonths ∧
        d = Nat.dist a (progressionTable (findClosestAux a l b).1) := by
  intro l
  induction l with
  | nil => intro b _ hb; simpa [findClosestAux] using hb
  | cons n rest ih =>
    intro b hl hb
    obtain ⟨bm, bd⟩ := b
    have hrest : ∀ x ∈ rest, x ∈ progressionMonths :=
      fun x hx => hl x (List.mem_cons_of_mem _ hx)
    have hn : n ∈ progressionMonths := hl n (List.mem_cons_self _ _)
    match bd with
    | none =>
      have hnew : ∀ d, (n, some (Nat.dist a (progressionTable n))).2 = some d →
          (n, some (Nat.dist a (progressionTable n))).1 ∈ progressionMonths ∧
          d = Nat.dist a (progressionTable
            (n, some (Nat.dist a (progressionTable n))).1) := by
        intro d hd
        simp only [Option.some.injEq] at hd
        exact ⟨hn, hd.symm⟩
      simpa [findClosestAux] using ih (n, some (Nat.dist a (progressionTable n))) hrest hnew
    | some bdv =>
      by_cases hlt : Nat.dist a (progressionTable n) < bdv
      · have hnew : ∀ d, (n, some (Nat.dist a (progressionTable n))).2 = some d →
            (n, some (Nat.dist a (progressionTable n))).1 ∈ progressionMonths ∧
            d = Nat.dist a (progressionTable
              (n, some (Nat.dist a (progressionTable n))).1) := by
          intro d hd
          simp only [Option.some.injEq] at hd
          exact ⟨hn, hd.symm⟩
        simpa [findClosestAux, hlt] using
          ih (n, some (Nat.dist a (progressionTable n))) hrest hnew
      · simpa [findClosestAux, hlt] using ih (bm, some bdv) hrest hb

lemma reverseStandardScan_no_match (a : ℕ)
    (hexact : ∀ n ∈ progressionMonths, progressionTable n ≠ a)
    (htol : ∀ n ∈ progressionMonths, a < 10 * Nat.dist a (progressionTable n)) :
    reverseStandardScan a = 1 := by
  have hfind : progressionMonths.find? (fun n => progressionTable n == a) = none := by
    rw [List.find?_eq_none]
    intro x hx
    simpa using hexact x hx
  rcases hsnd : (findClosestAux a progressionMonths (1, none)).2 with _ | md
  · simp [reverseStandardScan, hfind, hsnd]
  · have hspec := findClosestAux_spec a progressionMonths (1, none)
      (fun x hx => hx) (by intro d hd; simp at hd) md hsnd
    have hbig := htol _ hspec.1
    rw [← hspec.2] at hbig
    simp only [reverseStandardScan, hfind, hsnd]
    rw [if_neg (by omega)]

/-- C1: a positive incentive amount requires every applicable condition
to have passed (passed count equals applicable count), and any failure
of an applicable condition zeroes the period's amount and resets the
continuous-month count to 0. -/
theorem c1_hundred_percent_rule (row : ℕ → String) (category : String)
    (prev : ℕ) (cfa : Bool) :
    (0 < (calculateType1IncentiveByCategory category
          (calculateContinuousMonthsType1
            (evalType1Conditions row category).all_pass prev category) cfa
          (evalType1Conditions row category).all_pass).incentive_amount →
        (evalType1Conditions row category).passed_conditions.length =
          (evalType1Conditions row category).applicable_conditions.length) ∧
    ((evalType1Conditions row category).failed_conditions ≠ [] →
      (calculateType1IncentiveByCategory category
          (calculateContinuousMonthsType1
            (evalType1Conditions row category).all_pass prev category) cfa
          (evalType1Conditions row category).all_pass).incentive_amount = 0 ∧
        calculateContinuousMonthsType1
          (evalType1Conditions row category).all_pass prev category = 0) := by
  have hlen := evalLoop_length row (applicableConditionsFor category)
  by_cases hf : (evalLoop row (applicableConditionsFor category)).2 = []
  · constructor
    · intro _
      simp only [evalType1Conditions]
      rw [hf] at hlen
      simpa using hlen
    · intro hne
      exact absurd (by simpa [evalType1Conditions] using hf) hne
  · have hap : (evalType1Conditions row category).all_pass = false := by
      simp only [evalType1Conditions]
      simpa using fun h => hf (List.length_eq_zero.mp h)
    constructor
    · intro hpos
      rw [hap] at hpos
      simp [calculateType1IncentiveByCategory, calculateContinuousMonthsType1]
        at hpos
    · intro _
      rw [hap]
      simp [calculateType1IncentiveByCategory, calculateContinuousMonthsType1]

/-- Witness for C1 at concrete inputs: an all-passing row attains the
passed-equals-applicable conclusion, and a row failing condition 1 gets
a zero amount and a reset month count. -/
theorem c1_hundred_percent_rule_witness :
    ((evalType1Conditions (fun _ => "PASS") "OTHER").passed_conditions.length =
      (evalType1Conditions (fun _ => "PASS") "OTHER").applicable_conditions.length) ∧
    ((calculateType1IncentiveByCategory "OTHER"
        (calculateContinuousMonthsType1
          (evalType1Conditions (fun i => if i = 1 then "FAIL" else "PASS")
            "OTHER").all_pass 0 "OTHER") false
        (evalType1Conditions (fun i => if i = 1 then "FAIL" else "PASS")
          "OTHER").all_pass).incentive_amount = 0 ∧
      calculateContinuousMonthsType1
        (evalType1Conditions (fun i => if i = 1 then "FAIL" else "PASS")
          "OTHER").all_pass 0 "OTHER" = 0) :=
  ⟨(c1_hundred_percent_rule (fun _ => "PASS") "OTHER" 0 false).1 (by decide),
   (c1_hundred_percent_rule (fun i => if i = 1 then "FAIL" else "PASS")
      "OTHER" 0 false).2 (by decide)⟩

/-- C2: for a previous amount matching the progression table at a month
`n ≤ 11` (where the table is injective), the reverse derivation returns
`n` and the new continuous-month count is `n + 1`; previous amount
300,000 gives month 4 and the month-4 table amount; zero previous amount
gives 1. -/
theorem c2_reconstruction_consistency (cat : String) (cfa : Bool)
    (hcat : cat ≠ "AQL_INSPECTOR") :
    (∀ n, 1 ≤ n → n ≤ 11 →
      reverseCalculateMonthsUnified (progressionTable n) cat = n ∧
      calculateContinuousMonthsType1 true (progressionTable n) cat = n + 1) ∧
    calculateContinuousMonthsType1 true 300000 cat = 4 ∧
    (calculateType1IncentiveByCategory cat 4 cfa true).incentive_amount =
      progressionTable 4 ∧
    calculateContinuousMonthsType1 true 0 cat = 1 := by
  refine ⟨?_, ?_, ?_, ?_⟩
  · intro n h1 h11
    have hz : progressionTable n ≠ 0 := by interval_cases n <;> decide
    constructor
    · rw [reverseUnified_eq_scan _ _ hz hcat]
      interval_cases n <;> decide
    · rw [continuousMonths_of_pass _ _ hz, reverseUnified_eq_scan _ _ hz hcat]
      interval_cases n <;> decide
  · rw [continuousMonths_of_pass _ _ (by decide),
      reverseUnified_eq_scan _ _ (by decide) hcat]
    decide
  · simp [calculateType1IncentiveByCategory, hcat]
    decide
  · simp [calculateContinuousMonthsType1]

/-- Witness for C2 at `cat = "OTHER"`, `n = 5`: previous amount 400,000
reverses to month 5 and the new count is 6, with the 300,000 example and
the zero-previous case checked as well. -/
theorem c2_reconstruction_consistency_witness :
    (reverseCalculateMonthsUnified (progressionTable 5) "OTHER" = 5 ∧
      calculateContinuousMonthsType1 true (progressionTable 5) "OTHER" = 6) ∧
    calculateContinuousMonthsType1 true 300000 "OTHER" = 4 ∧
    (calculateType1IncentiveByCategory "OTHER" 4 false true).incentive_amount =
      progressionTable 4 ∧
    calculateContinuousMonthsType1 true 0 "OTHER" = 1 :=
  ⟨(c2_reconstruction_consistency "OTHER" false (by decide)).1 5 (by decide)
      (by decide),
    (c2_reconstruction_consistency "OTHER" false (by decide)).2.1,
    (c2_reconstruction_consistency "OTHER" false (by decide)).2.2.1,
    (c2_reconstruction_consistency "OTHER" false (by decide)).2.2.2⟩

/-- Counterexample to C3 as stated: 960,000 matches no progression-table
entry exactly, yet the unified reconstructor returns 11 (the nearest
entry, 950,000, is within the 10% tolerance), not the claimed fallback
of 1. -/
theorem c3_counterexample :
    (∀ n ∈ progressionMonths, progressionTable n ≠ 960000) ∧
    reverseCalculateMonthsUnified 960000 "ASSEMBLY_INSPECTOR" = 11 ∧
    (11 : ℕ) ≠ 1 := by
  refine ⟨?_, by decide, by decide⟩
  decide

/-- C3 (amended): on a positive amount with no exact table match, the
legacy reconstructor falls back to 1 with the logged warning; the
unified reconstructor falls back to 1 only when additionally no table
entry lies within the 10% tolerance, and neither raises. -/
theorem c3_fallback_amended (a : ℕ) (cat : String) (ha : a ≠ 0)
    (hcat : cat ≠ "AQL_INSPECTOR")
    (hexact : ∀ n ∈ progressionMonths, progressionTable n ≠ a) :
    reverseCalculateMonthsLegacy a = (1, true) ∧
    ((∀ n ∈ progressionMonths, a < 10 * Nat.dist a (progressionTable n)) →
      reverseCalculateMonthsUnified a cat = 1) := by
  constructor
  · have hfind : progressionMonths.find? (fun n => progressionTable n == a) =
        none := by
      rw [List.find?_eq_none]
      intro x hx
      simpa using hexact x hx
    simp [reverseCalculateMonthsLegacy, ha, hfind]
  · intro htol
    rw [reverseUnified_eq_scan _ _ ha hcat]
    exact reverseStandardScan_no_match a hexact htol

/-- Witness for C3 (amended) at amount 123: no exact match and no
tolerance match, so both reconstructors fall back to 1 (with the legacy
warning flag set). -/
theorem c3_fallback_amended_witness :
    reverseCalculateMonthsLegacy 123 = (1, true) ∧
    reverseCalculateMonthsUnified 123 "OTHER" = 1 :=
  ⟨(c3_fallback_amended 123 "OTHER" (by decide) (by decide) (by decide)).1,
   (c3_fallback_amended 123 "OTHER" (by decide) (by decide) (by decide)).2
      (by decide)⟩

/-- C10: the plateau amount 1,000,000 is mapped by months 12 through 15,
and the ascending-order scan returns the smallest, 12, so an eligible
standard-category employee previously paid the cap gets
continuous months 13. -/
theorem c10_plateau_reverse (cat : String) (hcat : cat ≠ "AQL_INSPECTOR") :
    reverseCalculateMonthsUnified 1000000 cat = 12 ∧
    calculateContinuousMonthsType1 true 1000000 cat = 13 ∧
    (∀ m, 12 ≤ m → m ≤ 15 → progressionTable m = 1000000) := by
  refine ⟨?_, ?_, ?_⟩
  · rw [reverseUnified_eq_scan _ _ (by decide) hcat]
    decide
  · rw [continuousMonths_of_pass _ _ (by decide),
      reverseUnified_eq_scan _ _ (by decide) hcat]
    decide
  · intro m h12 h15
    interval_cases m <;> decide

/-- Witness for C10 at `cat = "OTHER"`. -/
theorem c10_plateau_reverse_witness :
    reverseCalculateMonthsUnified 1000000 "OTHER" = 12 ∧
    calculateContinuousMonthsType1 true 1000000 "OTHER" = 13 ∧
    progressionTable 14 = 1000000 :=
  ⟨(c10_plateau_reverse "OTHER" (by decide)).1,
   (c10_plateau_reverse "OTHER" (by decide)).2.1,
   (c10_plateau_reverse "OTHER" (by decide)).2.2 14 (by decide) (by decide)⟩

lemma aggregateLoop_eq_filter (stored : ℕ → String) :
    ∀ l : List ℕ,
      aggregateLoop stored l =
        ((l.filter fun i =>
            !(stored i == "N/A" || stored i == "NOT_APPLICABLE")).length,
         (l.filter fun i =>
            !(stored i == "N/A" || stored i == "NOT_APPLICABLE") &&
              (stored i == "PASS")).length) := by
  intro l
  induction l with
  | nil => simp [aggregateLoop]
  | cons i rest ih =>
    by_cases hna : stored i = "N/A" ∨ stored i = "NOT_APPLICABLE"
    · rcases hna with h | h <;> simp [aggregateLoop, h, ih]
    · push_neg at hna
      by_cases hp : stored i = "PASS" <;>
        simp [aggregateLoop, hna.1, hna.2, hp, ih]

lemma lineLeaderTotals_sum_zero :
    ∀ subs : List Sub, (lineLeaderTotals subs).2.1 = 0 →
      (lineLeaderTotals subs).1 = 0 := by
  intro subs
  induction subs with
  | nil => simp [lineLeaderTotals]
  | cons s rest ih =>
    intro h
    by_cases hr : s.roleType = "TYPE-1"
    · by_cases hi : 0 < s.incentive
      · simp [lineLeaderTotals, hr, hi] at h
      · simp [lineLeaderTotals, hr, hi] at h ⊢
        exact ih h
    · simp [lineLeaderTotals, hr] at h ⊢
      exact ih h

lemma receiverTotals_nonpos :
    ∀ l : List ℚ, (∀ x ∈ l, ¬ 0 < x) → receiverTotals l = (0, 0) := by
  intro l
  induction l with
  | nil => simp [receiverTotals]
  | cons x rest ih =>
    intro h
    have hx := h x (List.mem_cons_self _ _)
    have hrest := ih fun y hy => h y (List.mem_cons_of_mem _ hy)
    simp [receiverTotals, hx, hrest]

/-- Counterexample to C4 as stated: with the OTHER applicable set
{1,2,3,4}, condition 1 FAIL and condition 2 NOT_APPLICABLE, the unified
evaluator's pass rate counts the not-applicable condition as a pass in
both numerator and denominator (3/4), while the NA-excluding ratio over
the applicable set is 2/3 — so "not-applicable never counts toward the
pass ratio" fails for the evaluator's aggregate. -/
theorem c4_counterexample :
    (evalType1Conditions (storedConditions [1, 2, 3, 4]
        (fun i => if i = 1 then "FAIL" else if i = 2 then "NOT_APPLICABLE"
          else "PASS")) "OTHER").pass_rate = 3 / 4 ∧
    2 ∈ (evalType1Conditions (storedConditions [1, 2, 3, 4]
        (fun i => if i = 1 then "FAIL" else if i = 2 then "NOT_APPLICABLE"
          else "PASS")) "OTHER").passed_conditions ∧
    storedConditions [1, 2, 3, 4]
        (fun i => if i = 1 then "FAIL" else if i = 2 then "NOT_APPLICABLE"
          else "PASS") 2 = "NOT_APPLICABLE" ∧
    aggregateCounts (storedConditions [1, 2, 3, 4]
        (fun i => if i = 1 then "FAIL" else if i = 2 then "NOT_APPLICABLE"
          else "PASS")) = (3, 2) ∧
    (3 / 4 : ℚ) ≠ 2 / 3 := by
  refine ⟨?_, by decide, by decide, by decide, by norm_num⟩
  have ha : applicableConditionsFor "OTHER" = [1, 2, 3, 4] := by decide
  have hl : (evalLoop (storedConditions [1, 2, 3, 4]
      (fun i => if i = 1 then "FAIL" else if i = 2 then "NOT_APPLICABLE"
        else "PASS")) [1, 2, 3, 4]).1.length = 3 := by decide
  simp only [evalType1Conditions, ha, hl]
  norm_num

/-- C4 (amended): the Excel aggregate counts exactly the conditions of
the applicable set whose stored result is neither `N/A` nor
`NOT_APPLICABLE`, excluding not-applicable results from numerator and
denominator alike; the all-pass decision treats a `NOT_APPLICABLE`
result as non-failing (it lands in the passed list), and every failed
condition carries a value outside the accepted pass set — but the
unified evaluator's own pass rate counts an in-set `NOT_APPLICABLE`
result in both numerator and denominator. -/
theorem c4_na_exclusion_amended (applicable : List ℕ) (raw : ℕ → String)
    (row : ℕ → String) (category : String) :
    ((aggregateCounts (storedConditions applicable raw)).1 =
      ((List.range' 1 10).filter fun i =>
        decide (i ∈ applicable) &&
          !(storedConditions applicable raw i == "N/A" ||
            storedConditions applicable raw i == "NOT_APPLICABLE")).length) ∧
    ((aggregateCounts (storedConditions applicable raw)).2 =
      ((List.range' 1 10).filter fun i =>
        decide (i ∈ applicable) &&
          (storedConditions applicable raw i == "PASS")).length) ∧
    (∀ i ∈ applicableConditionsFor category,
      condValue row i = "NOT_APPLICABLE" →
        i ∈ (evalType1Conditions row category).passed_conditions) ∧
    (∀ i ∈ (evalType1Conditions row category).failed_conditions,
      condValue row i ∉ passValues) := by
  refine ⟨?_, ?_, ?_, ?_⟩
  · rw [aggregateCounts, aggregateLoop_eq_filter]
    dsimp only
    congr 1
    apply List.filter_congr
    intro i _
    by_cases hmem : i ∈ applicable
    · simp [storedConditions, hmem]
    · simp [storedConditions, hmem]
  · rw [aggregateCounts, aggregateLoop_eq_filter]
    dsimp only
    congr 1
    apply List.filter_congr
    intro i _
    by_cases hmem : i ∈ applicable
    · by_cases hp : raw i = "PASS"
      · simp [storedConditions, hmem, hp]
      · simp [storedConditions, hmem, hp]
    · simp [storedConditions, hmem]
  · intro i hi hna
    have hpass : condValue row i ∈ passValues := by
      rw [hna]; simp [passValues]
    simp only [evalType1Conditions]
    have : ∀ l : List ℕ, i ∈ l → i ∈ (evalLoop row l).1 := by
      intro l
      induction l with
      | nil => simp
      | cons n rest ih =>
        intro hmem
        rcases List.mem_cons.mp hmem with h | h
        · subst h
          by_cases hc : hasConditionColumn i <;>
            simp [evalLoop, hc, hpass]
        · by_cases hc : hasConditionColumn n <;>
            by_cases hp : condValue row n ∈ passValues <;>
            simp [evalLoop, hc, hp, ih h]
    exact this _ hi
  · intro i hi
    simp only [evalType1Conditions] at hi
    have : ∀ l : List ℕ, i ∈ (evalLoop row l).2 →
        condValue row i ∉ passValues := by
      intro l
      induction l with
      | nil => simp [evalLoop]
      | cons n rest ih =>
        intro hmem
        by_cases hc : hasConditionColumn n
        · by_cases hp : condValue row n ∈ passValues
          · simp [evalLoop, hc, hp] at hmem
            exact ih hmem
          · simp [evalLoop, hc, hp] at hmem
            rcases hmem with h | h
            · subst h; exact hp
            · exact ih h
        · simp [evalLoop, hc] at hmem
          exact ih hmem
    exact this _ hi

/-- Witness for C4 (amended) at the counterexample row: the aggregate
counts are (3,2), condition 2's NOT_APPLICABLE value lands in the
passed list, and the failed condition 1 carries a non-passing value. -/
theorem c4_na_exclusion_amended_witness :
    ((aggregateCounts (storedConditions [1, 2, 3, 4]
        (fun i => if i = 1 then "FAIL" else if i = 2 then "NOT_APPLICABLE"
          else "PASS"))).1 =
      ((List.range' 1 10).filter fun i =>
        decide (i ∈ ([1, 2, 3, 4] : List ℕ)) &&
          !(storedConditions [1, 2, 3, 4]
              (fun i => if i = 1 then "FAIL" else if i = 2 then "NOT_APPLICABLE"
                else "PASS") i == "N/A" ||
            storedConditions [1, 2, 3, 4]
              (fun i => if i = 1 then "FAIL" else if i = 2 then "NOT_APPLICABLE"
                else "PASS") i == "NOT_APPLICABLE")).length) ∧
    2 ∈ (evalType1Conditions (storedConditions [1, 2, 3, 4]
        (fun i => if i = 1 then "FAIL" else if i = 2 then "NOT_APPLICABLE"
          else "PASS")) "OTHER").passed_conditions :=
  ⟨(c4_na_exclusion_amended [1, 2, 3, 4]
      (fun i => if i = 1 then "FAIL" else if i = 2 then "NOT_APPLICABLE"
        else "PASS")
      (storedConditions [1, 2, 3, 4]
        (fun i => if i = 1 then "FAIL" else if i = 2 then "NOT_APPLICABLE"
          else "PASS")) "OTHER").1,
   (c4_na_exclusion_amended [1, 2, 3, 4]
      (fun i => if i = 1 then "FAIL" else if i = 2 then "NOT_APPLICABLE"
        else "PASS")
      (storedConditions [1, 2, 3, 4]
        (fun i => if i = 1 then "FAIL" else if i = 2 then "NOT_APPLICABLE"
          else "PASS")) "OTHER").2.2.1 2 (by decide) (by decide)⟩

/-- C5: a line leader passing all four attendance conditions, with no
subordinate flagged by the year's sustained-audit-failure policy, gets
`int(total_sub_incentive * 0.12 * receiving_ratio)` over the TYPE-1
subordinates; any flagged subordinate (with the condition-7 check
active) zeroes the amount. -/
theorem c5_line_leader_formula (c1 c2 c3 c4 : String) (subs : List Sub)
    (shouldCheck : Bool) (year : ℕ)
    (h1 : c1 ≠ "FAIL") (h2 : c2 ≠ "FAIL") (h3 : c3 ≠ "FAIL") (h4 : c4 ≠ "FAIL") :
    (checkSubordinatesContinuousFail year subs = false →
      0 < (lineLeaderTotals subs).2.2 →
      calculateLineLeaderIncentive c1 c2 c3 c4 true subs shouldCheck year =
        (⌊(lineLeaderTotals subs).1 * (12 / 100 : ℚ) *
          (((lineLeaderTotals subs).2.1 : ℚ) /
            ((lineLeaderTotals subs).2.2 : ℚ))⌋).toNat) ∧
    (shouldCheck = true → checkSubordinatesContinuousFail year subs = true →
      calculateLineLeaderIncentive c1 c2 c3 c4 true subs shouldCheck year = 0) := by
  constructor
  · intro hflag htot
    by_cases hrecv : 0 < (lineLeaderTotals subs).2.1
    · simp [calculateLineLeaderIncentive, h1, h2, h3, h4, hflag, htot, hrecv]
    · have hrecv0 : (lineLeaderTotals subs).2.1 = 0 := by omega
      have hsum0 : (lineLeaderTotals subs).1 = 0 :=
        lineLeaderTotals_sum_zero subs hrecv0
      simp [calculateLineLeaderIncentive, h1, h2, h3, h4, hflag, htot, hrecv,
        hsum0]
  · intro hsc hflag
    simp [calculateLineLeaderIncentive, h1, h2, h3, h4, hsc, hflag]

/-- Witness for C5: two TYPE-1 subordinates with amounts 200,000 and 0
(no audit flags) give `int(200000 * 0.12 * (1/2)) = 12000`; a flagged
subordinate yields 0. -/
theorem c5_line_leader_formula_witness :
    calculateLineLeaderIncentive "PASS" "PASS" "PASS" "PASS" true
      [⟨"TYPE-1", 200000, "NO"⟩, ⟨"TYPE-1", 0, "NO"⟩] true 2025 =
      (⌊(lineLeaderTotals [⟨"TYPE-1", 200000, "NO"⟩, ⟨"TYPE-1", 0, "NO"⟩]).1 *
        (12 / 100 : ℚ) *
        (((lineLeaderTotals
            [⟨"TYPE-1", 200000, "NO"⟩, ⟨"TYPE-1", 0, "NO"⟩]).2.1 : ℚ) /
          ((lineLeaderTotals
            [⟨"TYPE-1", 200000, "NO"⟩, ⟨"TYPE-1", 0, "NO"⟩]).2.2 : ℚ))⌋).toNat ∧
    calculateLineLeaderIncentive "PASS" "PASS" "PASS" "PASS" true
      [⟨"TYPE-1", 200000, "YES_3MONTHS"⟩] true 2025 = 0 :=
  ⟨(c5_line_leader_formula "PASS" "PASS" "PASS" "PASS"
      [⟨"TYPE-1", 200000, "NO"⟩, ⟨"TYPE-1", 0, "NO"⟩] true 2025
      (by decide) (by decide) (by decide) (by decide)).1 (by decide) (by decide),
   (c5_line_leader_formula "PASS" "PASS" "PASS" "PASS"
      [⟨"TYPE-1", 200000, "YES_3MONTHS"⟩] true 2025
      (by decide) (by decide) (by decide) (by decide)).2 rfl (by decide)⟩

/-- C6: the unified line-leader average is taken over receivers only —
{200000, 0, 400000} averages to 300000, and a zero-payout subordinate
changes nothing — and a head whose subordinate line leaders all received
nothing is computed exactly like a head with no subordinate line
leaders, i.e. through the pooled fallback over receiving line leaders. -/
theorem c6_receivers_only_average (subs pool : List ℚ)
    (hz : ∀ x ∈ subs, ¬ 0 < x) :
    lineLeaderAverageUnified [200000, 0, 400000] = 300000 ∧
    (∀ l : List ℚ, lineLeaderAverageUnified (0 :: l) =
      lineLeaderAverageUnified l) ∧
    calculateHeadIncentive false subs pool =
      calculateHeadIncentive false [] pool := by
  refine ⟨?_, ?_, ?_⟩
  · norm_num [lineLeaderAverageUnified, receiverTotals]
  · intro l
    rcases l with _ | ⟨x, rest⟩
    · norm_num [lineLeaderAverageUnified, receiverTotals]
    · simp [lineLeaderAverageUnified, receiverTotals]
  · have hrt : receiverTotals subs = (0, 0) := receiverTotals_nonpos subs hz
    have havg : (if subs.isEmpty then (0 : ℚ)
        else lineLeaderAverageUnified subs) = 0 := by
      rcases subs with _ | ⟨x, rest⟩
      · simp
      · simp [lineLeaderAverageUnified, hrt]
    simp only [calculateHeadIncentive, havg]
    simp

/-- Witness for C6 with subordinates {0, 0} and pool {100000, 0}: the
head falls back to the pooled receiving average. -/
theorem c6_receivers_only_average_witness :
    lineLeaderAverageUnified [200000, 0, 400000] = 300000 ∧
    calculateHeadIncentive false [0, 0] [100000, 0] =
      calculateHeadIncentive false [] [100000, 0] :=
  ⟨(c6_receivers_only_average [0, 0] [100000, 0] (by decide)).1,
   (c6_receivers_only_average [0, 0] [100000, 0] (by decide)).2.2⟩

/-- C7: failing exactly the two most recent of the three audit periods
yields the `YES_2MONTHS_<M2>_<M3>` tag (not `YES_3MONTHS`, which needs
all three); under the pre-cutover policy (year ≤ 2025) that tag does not
disqualify, while post-cutover (year ≥ 2026) it does. -/
theorem c7_two_consecutive_policy (y1 y2 : ℕ) (hy1 : y1 ≤ 2025)
    (hy2 : 2026 ≤ y2) :
    classifyContinuousFail false true true "DECEMBER" "JANUARY" =
      "YES_2MONTHS_DEC_JAN" ∧
    classifyContinuousFail false true true "DECEMBER" "JANUARY" ≠
      "YES_3MONTHS" ∧
    classifyContinuousFail true true true "DECEMBER" "JANUARY" =
      "YES_3MONTHS" ∧
    isConsecutiveFailureForYear
      (classifyContinuousFail false true true "DECEMBER" "JANUARY") y1 =
        false ∧
    isConsecutiveFailureForYear
      (classifyContinuousFail false true true "DECEMBER" "JANUARY") y2 =
        true := by
  refine ⟨by decide, by decide, by decide, ?_, ?_⟩
  · simp only [isConsecutiveFailureForYear, if_pos hy1]
    decide
  · simp only [isConsecutiveFailureForYear, if_neg (by omega : ¬ y2 ≤ 2025)]
    decide

/-- Witness for C7 at years 2025 and 2026. -/
theorem c7_two_consecutive_policy_witness :
    isConsecutiveFailureForYear
      (classifyContinuousFail false true true "DECEMBER" "JANUARY") 2025 =
        false ∧
    isConsecutiveFailureForYear
      (classifyContinuousFail false true true "DECEMBER" "JANUARY") 2026 =
        true :=
  ⟨(c7_two_consecutive_policy 2025 2026 (by decide) (by decide)).2.2.2.1,
   (c7_two_consecutive_policy 2025 2026 (by decide) (by decide)).2.2.2.2⟩

/-- C8: on every reporting table — cycles, self-references and duplicate
edges included — the hierarchy BFS terminates (it is a total function)
and collects a deduplicated list of TYPE-1 line leaders: no employee id
appears twice and the result is bounded by the table size. -/
theorem c8_bfs_termination_dedup (rows : List Emp) (managerId : ℕ) :
    ((findAllSubordinateLineLeaders rows managerId).filterMap
      Emp.empId).Nodup ∧
    (∀ e ∈ findAllSubordinateLineLeaders rows managerId,
      e.roleType = "TYPE-1" ∧ e.position = "LINE LEADER") ∧
    (findAllSubordinateLineLeaders rows managerId).length ≤ rows.length := by
  rcases hfind : rows.find? (fun e => e.empId == some managerId) with _ | m
  · simp [findAllSubordinateLineLeaders, hfind]
  · have hinit : BfsInv (rowIds rows) {managerId} [] := by
      refine ⟨?_, ?_, ?_, ?_, ?_⟩ <;> simp
    obtain ⟨v', hnd, _, hsome, hrole, hids⟩ :=
      bfsCollect_inv rows {managerId} [(managerId, m.name)] [] hinit
    have hres : findAllSubordinateLineLeaders rows managerId =
        bfsCollect rows {managerId} [(managerId, m.name)] [] := by
      simp [findAllSubordinateLineLeaders, hfind]
    rw [hres]
    refine ⟨hnd, hrole, ?_⟩
    have hlenf := length_filterMap_of_isSome _ hsome
    calc (bfsCollect rows {managerId} [(managerId, m.name)] []).length
        = ((bfsCollect rows {managerId} [(managerId, m.name)]
            []).filterMap Emp.empId).length := hlenf.symm
      _ = ((bfsCollect rows {managerId} [(managerId, m.name)]
            []).filterMap Emp.empId).toFinset.card :=
          (List.toFinset_card_of_nodup hnd).symm
      _ ≤ (rowIds rows).card := by
          apply Finset.card_le_card
          intro i hi
          exact hids i (List.mem_toFinset.mp hi)
      _ ≤ (rows.filterMap Emp.empId).length := List.toFinset_card_le _
      _ ≤ rows.length := List.length_filterMap_le _ _

/-- Counterexample to C9 as stated: the consolidation step compares the
raw cleaned values, not normalized ones — "A2" and "A" normalize to the
same parent zone "A", yet `_process_building_consolidation` emits a
discrepancy record for them. -/
theorem c9_counterexample :
    normalizeBuilding "A2" = normalizeBuilding "A" ∧
    (consolidateBuilding "A2" "A").mismatch = some ("A2", "A") ∧
    (consolidateBuilding "A2" "A").final = "A2" := by
  refine ⟨by decide, by decide, by decide⟩

/-- C9 (amended): consolidation keeps the roster value when present and
uses the audit value only as fallback, and emits a discrepancy record
carrying both cleaned values exactly when both are present and the RAW
cleaned values differ; the case-fold/sub-zone normalization (first
character, upper-cased) is applied only in the separate building-review
analysis, whose data-source mismatch fires exactly when both cleaned
values are present and their normalized forms differ. -/
theorem c9_consolidation_amended (basicRaw aqlRaw : String) :
    (cleanBuilding basicRaw ≠ "" →
      (consolidateBuilding basicRaw aqlRaw).final = cleanBuilding basicRaw) ∧
    (cleanBuilding basicRaw = "" →
      (consolidateBuilding basicRaw aqlRaw).final = cleanBuilding aqlRaw) ∧
    ((consolidateBuilding basicRaw aqlRaw).mismatch =
        some (cleanBuilding basicRaw, cleanBuilding aqlRaw) ↔
      cleanBuilding basicRaw ≠ "" ∧ cleanBuilding aqlRaw ≠ "" ∧
        cleanBuilding basicRaw ≠ cleanBuilding aqlRaw) ∧
    (dataSourceMismatch basicRaw aqlRaw = true ↔
      cleanBuilding basicRaw ≠ "" ∧ cleanBuilding aqlRaw ≠ "" ∧
        ∃ h a, normalizeBuilding (cleanBuilding basicRaw) = some h ∧
          normalizeBuilding (cleanBuilding aqlRaw) = some a ∧ h ≠ a) := by
  by_cases hb : cleanBuilding basicRaw = ""
  · by_cases ha : cleanBuilding aqlRaw = ""
    · refine ⟨fun h => absurd hb h, fun _ => ?_, ?_, ?_⟩
      · simp [consolidateBuilding, hb, ha]
      · simp [consolidateBuilding, hb, ha]
      · simp [dataSourceMismatch, hb, ha]
    · refine ⟨fun h => absurd hb h, fun _ => ?_, ?_, ?_⟩
      · simp [consolidateBuilding, hb, ha]
      · simp [consolidateBuilding, hb, ha]
      · simp [dataSourceMismatch, hb, ha]
  · by_cases ha : cleanBuilding aqlRaw = ""
    · refine ⟨fun _ => ?_, fun h => absurd h hb, ?_, ?_⟩
      · simp [consolidateBuilding, hb, ha]
      · simp [consolidateBuilding, hb, ha]
      · simp [dataSourceMismatch, hb, ha]
    · by_cases heq : cleanBuilding basicRaw = cleanBuilding aqlRaw
      · refine ⟨fun _ => ?_, fun h => absurd h hb, ?_, ?_⟩
        · simp [consolidateBuilding, hb, ha, heq]
        · simp [consolidateBuilding, hb, ha, heq]
        · rcases hn : normalizeBuilding (cleanBuilding aqlRaw) with _ | na
          · simp [dataSourceMismatch, hb, ha, heq, hn]
          · simp [dataSourceMismatch, hb, ha, heq, hn]
      · refine ⟨fun _ => ?_, fun h => absurd h hb, ?_, ?_⟩
        · simp [consolidateBuilding, hb, ha, heq]
        · simp [consolidateBuilding, hb, ha, heq]
        · rcases hn : normalizeBuilding (cleanBuilding basicRaw) with _ | nb <;>
            rcases hn' : normalizeBuilding (cleanBuilding aqlRaw) with _ | na <;>
            simp [dataSourceMismatch, hb, ha, hn, hn']

/-- Witness for C9 (amended) at roster "B1" vs audit "B2": roster value
kept, raw mismatch recorded, but the review-analysis normalized
comparison (first character "B" on both sides) does not fire. -/
theorem c9_consolidation_amended_witness :
    (consolidateBuilding "B1" "B2").final = cleanBuilding "B1" ∧
    ((consolidateBuilding "B1" "B2").mismatch =
      some (cleanBuilding "B1", cleanBuilding "B2")) ∧
    dataSourceMismatch "B1" "B2" = false :=
  ⟨(c9_consolidation_amended "B1" "B2").1 (by decide),
   (c9_consolidation_amended "B1" "B2").2.2.1.mpr
     ⟨by decide, by decide, by decide⟩,
   by
    have hiff := (c9_consolidation_amended "B1" "B2").2.2.2
    rcases hd : dataSourceMismatch "B1" "B2" with _ | _
    · rfl
    · obtain ⟨-, -, h1, a1, hh, ha', hne⟩ := hiff.mp hd
      have e1 : normalizeBuilding (cleanBuilding "B1") = some "B" := by decide
      have e2 : normalizeBuilding (cleanBuilding "B2") = some "B" := by decide
      rw [e1] at hh
      rw [e2] at ha'
      obtain rfl : "B" = h1 := Option.some.inj hh
      obtain rfl : "B" = a1 := Option.some.inj ha'
      exact absurd rfl hne⟩

end QIP
